import Mathlib

/-!
Shallow embedding of `createcomponent.py`, an interactive scaffolding
helper that creates boilerplate React component files.  Strings are
modelled as `List Char`, filesystem paths as parsed POSIX paths
(absolute flag plus a list of path components, mirroring
`pathlib.PurePosixPath`), and the filesystem as a list of existing
directories plus an association list from paths to file contents.
Fallible filesystem operations return `Except`, carrying the filesystem
state at the point of failure.
-/

namespace CreateComponent

/-- Strings of the Python program, modelled as lists of characters. -/
abbrev Str := List Char

/-- Coerce a Lean string literal to the `Str` model. -/
def str (s : String) : Str := s.data

/-- The POSIX path separator used by the script (`"/"`). -/
def sep : Char := '/'

/-- ASCII whitespace recognised by Python's `str.strip()`. -/
def isPySpace (c : Char) : Bool :=
  c = ' ' || c = '\t' || c = '\n' || c = '\r' || c = '\x0b' || c = '\x0c'

/-- Remove trailing whitespace, as the trailing half of `str.strip()`. -/
def dropTrailing (s : Str) : Str := (s.reverse.dropWhile isPySpace).reverse

/-- Python's `str.strip()` with no arguments (ASCII fragment). -/
def pyStrip (s : Str) : Str := dropTrailing (s.dropWhile isPySpace)

/-- Python's `str.lower()` (ASCII fragment). -/
def pyLower (s : Str) : Str := s.map Char.toLower

/-- Worker for `splitOn`: accumulates the current piece in reverse. -/
def splitOnAux : Str → Str → List Str
  | [], acc => [acc.reverse]
  | x :: rest, acc =>
    if x = sep then acc.reverse :: splitOnAux rest []
    else splitOnAux rest (x :: acc)

/-- Python's `str.split("/")`: split on every separator, keeping empty
pieces; the empty string yields `[""]`. -/
def splitOn (s : Str) : List Str := splitOnAux s []

/-- Python's `"/".join(pieces)`. -/
def joinSep : List Str → Str
  | [] => []
  | t :: ts =>
    t ++ (match ts with
          | [] => []
          | _ :: _ => sep :: joinSep ts)

/-- A parsed POSIX path in the style of `pathlib.PurePosixPath`:
whether it is absolute, and its (non-empty) components in order. -/
structure PyPath where
  isAbsolute : Bool
  parts : List Str
deriving DecidableEq

/-- Does the raw path string start with the separator? -/
def startsWithSep : Str → Bool
  | [] => false
  | c :: _ => c = sep

/-- Drop empty components, as `pathlib` does when parsing a path string. -/
def keepNonempty (l : List Str) : List Str := l.filter (fun t => !t.isEmpty)

/-- `pathlib`'s `p / s` for a path `p` and a raw string `s`: if `s` is
absolute it replaces `p` entirely; otherwise its non-empty components
are appended to `p`. -/
def pathJoinStr (p : PyPath) (s : Str) : PyPath :=
  if startsWithSep s then ⟨true, keepNonempty (splitOn s)⟩
  else ⟨p.isAbsolute, p.parts ++ keepNonempty (splitOn s)⟩

/-- `pathlib`'s `p.parent`. -/
def parentPath (p : PyPath) : PyPath := ⟨p.isAbsolute, p.parts.dropLast⟩

/-- The filesystem: the set of directories that exist, and the files
that exist together with their text contents. -/
structure FS where
  dirs : List PyPath
  files : List (PyPath × Str)
deriving DecidableEq

/-- Contents of the file at `p`, if it exists (front-most entry wins). -/
def findContents (p : PyPath) : List (PyPath × Str) → Option Str
  | [] => none
  | (q, s) :: rest => if q = p then some s else findContents p rest

/-- All ancestor paths of `p`, including `p` itself and the root. -/
def prefixesOf (p : PyPath) : List PyPath :=
  (List.range (p.parts.length + 1)).map (fun n => ⟨p.isAbsolute, p.parts.take n⟩)

/-- `p.mkdir(parents=True, exist_ok=True)`: make `p` and all of its
ancestors exist as directories. -/
def mkdirParents (p : PyPath) (fs : FS) : FS :=
  { fs with dirs := prefixesOf p ++ fs.dirs }

/-- Message standing in for a `FileNotFoundError` raised by the OS. -/
def fileNotFoundMsg : Str := str ("FileNotFoundError")

/-- `p.touch(exist_ok=True)`: create an empty file at `p` if absent,
leave it alone if present; fails when the parent directory is missing.
On failure the error carries the unchanged filesystem. -/
def touch (p : PyPath) (fs : FS) : Except (Str × FS) FS :=
  if parentPath p ∈ fs.dirs then
    match findContents p fs.files with
    | some _ => .ok fs
    | none => .ok { fs with files := (p, []) :: fs.files }
  else .error (fileNotFoundMsg, fs)

/-- `p.write_text(s)`: replace the contents of the file at `p`;
fails when the parent directory is missing. -/
def write_text (p : PyPath) (s : Str) (fs : FS) : Except (Str × FS) FS :=
  if parentPath p ∈ fs.dirs then .ok { fs with files := (p, s) :: fs.files }
  else .error (fileNotFoundMsg, fs)

/-- `p.read_text()`: the contents of the file at `p`;
fails when the file does not exist. -/
def read_text (p : PyPath) (fs : FS) : Except (Str × FS) Str :=
  match findContents p fs.files with
  | some s => .ok s
  | none => .error (fileNotFoundMsg, fs)

/-- The two base categories (`BaseFolder: TypeAlias = Literal["components", "pages"]`). -/
inductive BaseFolder
  | components
  | pages
deriving DecidableEq

/-- The literal string of a base category. -/
def baseFolderStr : BaseFolder → Str
  | .components => str ("components")
  | .pages => str ("pages")

/-- `Element`: the directory where the component's files live and the
component's base name (`@dataclass class Element`). -/
structure Element where
  full_path : PyPath
  name : Str
deriving DecidableEq

/-- `AskParams._parse_as_element`: split the entered string on `"/"`;
the last piece is the element name; the directory below the base
category is the joined remaining pieces if there are several,
and the name itself when there is exactly one. -/
def parse_as_element (SRC_DIR : PyPath) (element_str : Str)
    (base_folder : BaseFolder) : Element :=
  let element_as_list := splitOn element_str
  let element_name := element_as_list.getLastD []
  let relative_path :=
    if element_as_list.length > 1 then joinSep element_as_list.dropLast
    else element_name
  { full_path := pathJoinStr (pathJoinStr SRC_DIR (baseFolderStr base_folder)) relative_path
    name := element_name }

/-- `FileCreator._create_empty_file`: `mkdir(parents=True, exist_ok=True)`
on the parent directory, then `touch(exist_ok=True)` on the file. -/
def create_empty_file (p : PyPath) (fs : FS) : Except (Str × FS) FS :=
  touch p (mkdirParents (parentPath p) fs)

/-- `FileCreator.create`, shared by all creators: initialise the empty
file, then run the kind-specific content step. -/
def creator_create (filename : Element → PyPath)
    (write_contents : Element → FS → Except (Str × FS) FS)
    (e : Element) (fs : FS) : Except (Str × FS) FS := do
  let fs1 ← create_empty_file (filename e) fs
  write_contents e fs1

/-- `TSXFileCreator.get_absolute_filename`: `full_path / (name + ".tsx")`. -/
def tsx_absolute_filename (e : Element) : PyPath :=
  pathJoinStr e.full_path (e.name ++ str (".tsx"))

/-- The f-string template written by `TSXFileCreator._write_file_contents`,
before the final `.strip()`. -/
def tsx_template (N : Str) : Str :=
  str ("import styles from \"./") ++ N ++ str (".module.css\"\n\ninterface ")
    ++ N ++ str ("Props \x7b\n  \n\x7d\n\nconst ")
    ++ N ++ str (" = (\x7b\x7d: ")
    ++ N ++ str ("Props) => (\n  <div>")
    ++ N ++ str ("</div>\n)\n\nexport default ")
    ++ N ++ str ("\n        ")

/-- `TSXFileCreator._write_file_contents`: write the stripped template. -/
def tsx_write_contents (e : Element) (fs : FS) : Except (Str × FS) FS :=
  write_text (tsx_absolute_filename e) (pyStrip (tsx_template e.name)) fs

/-- `TSXFileCreator.create`. -/
def tsx_create : Element → FS → Except (Str × FS) FS :=
  creator_create tsx_absolute_filename tsx_write_contents

/-- `CSSFileCreator.get_absolute_filename`: `full_path / (name + ".module.css")`. -/
def css_absolute_filename (e : Element) : PyPath :=
  pathJoinStr e.full_path (e.name ++ str (".module.css"))

/-- `CSSFileCreator._write_file_contents`: `pass` — writes nothing. -/
def css_write_contents (_ : Element) (fs : FS) : Except (Str × FS) FS :=
  .ok fs

/-- `CSSFileCreator.create`. -/
def css_create : Element → FS → Except (Str × FS) FS :=
  creator_create css_absolute_filename css_write_contents

/-- `IndexFileCreator.get_absolute_filename`: `full_path / "index.ts"`. -/
def index_absolute_filename (e : Element) : PyPath :=
  pathJoinStr e.full_path (str ("index.ts"))

/-- The re-export line `export {default} from "./<name>";`. -/
def index_export_line (N : Str) : Str :=
  str ("export \x7bdefault\x7d from \"./") ++ N ++ str ("\";")

/-- `IndexFileCreator._write_file_contents`: read the current contents;
if they are non-blank, return without writing; otherwise write the
re-export line. -/
def index_write_contents (e : Element) (fs : FS) : Except (Str × FS) FS := do
  let current_file_contents ← read_text (index_absolute_filename e) fs
  if pyStrip current_file_contents ≠ [] then .ok fs
  else write_text (index_absolute_filename e) (index_export_line e.name) fs

/-- `IndexFileCreator.create`. -/
def index_create : Element → FS → Except (Str × FS) FS :=
  creator_create index_absolute_filename index_write_contents

/-- `ElementFilesCreator.create` with the creators registered by `main`,
in registration order: TSX, CSS, then index. -/
def element_files_create (e : Element) (fs : FS) : Except (Str × FS) FS := do
  let fs1 ← tsx_create e fs
  let fs2 ← css_create e fs1
  index_create e fs2

/-- Result of the confirmation prompt loop, over a scripted list of
input lines. -/
inductive ConfirmResult
  | confirmed (rest : List Str)
  | exited (exitCode : Nat) (message : Str)
  | out_of_input
deriving DecidableEq

/-- CPython semantics of `exit(message)` for a non-`int`, non-`None`
argument: the message is printed to stderr and the process exit
status is 1 (not 0). -/
def pyExitStatusOfMessage : Nat := 1

/-- The message of `exit("Ок, выходим, ничего не создал.")`. -/
def cancelMessage : Str := str ("Ок, выходим, ничего не создал.")

/-- `AskParams.ask_ok`: loop over input lines; after `strip().lower()`,
`"y"` or the empty line confirms, `"n"` exits the whole program via
`exit(message)`, and anything else re-prompts. -/
def ask_ok : List Str → ConfirmResult
  | [] => .out_of_input
  | line :: rest =>
    let t := pyLower (pyStrip line)
    if t = str ("y") ∨ t = [] then .confirmed rest
    else if t = str ("n") then .exited pyExitStatusOfMessage cancelMessage
    else ask_ok rest

/-- `AskParams._ask_base_folder`: loop over input lines; after
`strip().lower()`, `"c"` selects components, `"p"` selects pages, and
anything else re-prompts.  `none` models running out of input. -/
def ask_base_folder : List Str → Option (BaseFolder × List Str)
  | [] => none
  | line :: rest =>
    let t := pyLower (pyStrip line)
    if t = str ("c") then some (.components, rest)
    else if t = str ("p") then some (.pages, rest)
    else ask_base_folder rest

/-- Outcome of one whole run of the program. -/
inductive RunResult
  | completed (exitCode : Nat) (fs : FS)
  | cancelled (exitCode : Nat) (message : Str) (fs : FS)
  | crashed (fs : FS)
deriving DecidableEq

/-- `main`: ask the base folder, ask and strip the element string, parse
it into an `Element`, confirm, and only then create the three files in
order.  Declining at the confirmation exits before any write. -/
def main (SRC_DIR : PyPath) (stdin : List Str) (fs : FS) : RunResult :=
  match ask_base_folder stdin with
  | none => .crashed fs
  | some (base_folder, rest1) =>
    match rest1 with
    | [] => .crashed fs
    | element_line :: rest2 =>
      let element := parse_as_element SRC_DIR (pyStrip element_line) base_folder
      match ask_ok rest2 with
      | .out_of_input => .crashed fs
      | .exited code msg => .cancelled code msg fs
      | .confirmed _ =>
        match element_files_create element fs with
        | .ok fs2 => .completed 0 fs2
        | .error (_, fsErr) => .crashed fsErr

/-- Directory described by the spec for input `s` under base category
`base_folder`: `<root>/<B>/<relative>` read as a path, where `relative`
is the non-final segments of `s` joined by `"/"` when there are several
segments, and the single segment itself otherwise.  This is the
spec-side definition to compare the parser against. -/
def spec_directory (SRC_DIR : PyPath) (base_folder : BaseFolder) (s : Str) : PyPath :=
  let segs := splitOn s
  let rel := if segs.length > 1 then segs.dropLast else [segs.getLastD []]
  ⟨SRC_DIR.isAbsolute, SRC_DIR.parts ++ baseFolderStr base_folder :: keepNonempty rel⟩

/-- The script-file content the spec describes: an import of the
sibling style file, a typed props container `<name>Props`, a component
`<name>` rendering the literal text `<name>`, and a default export of
`<name>`.  This is the spec-side definition to compare the template
against. -/
def tsx_content_described (N : Str) : Str :=
  str ("import styles from \"./") ++ N ++ str (".module.css\"\n\ninterface ")
    ++ N ++ str ("Props \x7b\n  \n\x7d\n\nconst ")
    ++ N ++ str (" = (\x7b\x7d: ")
    ++ N ++ str ("Props) => (\n  <div>")
    ++ N ++ str ("</div>\n)\n\nexport default ")
    ++ N

/-! ### Lemmas about splitting and joining on the path separator -/

/-- The accumulator of `splitOnAux` is prepended to the first piece. -/
theorem splitOnAux_acc : ∀ (xs acc : Str),
    splitOnAux xs acc =
      (acc.reverse ++ (splitOnAux xs []).headD []) :: (splitOnAux xs []).tail := by
  intro xs
  induction xs with
  | nil => intro acc; simp [splitOnAux]
  | cons x rest ih =>
    intro acc
    by_cases hx : x = sep
    · simp [splitOnAux, hx]
    · simp only [splitOnAux, if_neg hx]
      rw [ih (x :: acc), ih [x]]
      simp [List.append_assoc]

/-- `str.split` never returns an empty list of pieces. -/
theorem splitOn_ne_nil (s : Str) : splitOn s ≠ [] := by
  rw [splitOn, splitOnAux_acc]
  simp

/-- No piece produced by `splitOnAux` contains the separator. -/
theorem splitOnAux_sep_free : ∀ (xs acc : Str), sep ∉ acc →
    ∀ t ∈ splitOnAux xs acc, sep ∉ t := by
  intro xs
  induction xs with
  | nil =>
    intro acc hacc t ht
    simp only [splitOnAux, List.mem_singleton] at ht
    subst ht
    simpa using hacc
  | cons x rest ih =>
    intro acc hacc t ht
    by_cases hx : x = sep
    · simp only [splitOnAux, if_pos hx, List.mem_cons] at ht
      rcases ht with h1 | h2
      · subst h1; simpa using hacc
      · exact ih [] (by simp) t h2
    · simp only [splitOnAux, if_neg hx] at ht
      refine ih (x :: acc) ?_ t ht
      simp only [List.mem_cons, not_or]
      exact ⟨fun h => hx h.symm, hacc⟩

/-- No piece of `splitOn` contains the separator. -/
theorem splitOn_sep_free (s : Str) : ∀ t ∈ splitOn s, sep ∉ t :=
  splitOnAux_sep_free s [] (by simp)

/-- Splitting a separator-free string yields that single piece. -/
theorem splitOnAux_of_no_sep : ∀ (t acc : Str), sep ∉ t →
    splitOnAux t acc = [acc.reverse ++ t] := by
  intro t
  induction t with
  | nil => intro acc _; simp [splitOnAux]
  | cons x r ih =>
    intro acc h
    have hx : ¬ x = sep := by
      intro hxe
      exact h (by simp [hxe])
    simp only [splitOnAux, if_neg hx]
    rw [ih (x :: acc) (fun hm => h (List.mem_cons_of_mem x hm))]
    simp

/-- Splitting a separator-free string yields that string alone. -/
theorem splitOn_of_no_sep (t : Str) (h : sep ∉ t) : splitOn t = [t] := by
  rw [splitOn, splitOnAux_of_no_sep t [] h]
  simp

/-- Splitting peels off a separator-free head piece. -/
theorem splitOnAux_append_sep : ∀ (t acc r : Str), sep ∉ t →
    splitOnAux (t ++ sep :: r) acc = (acc.reverse ++ t) :: splitOn r := by
  intro t
  induction t with
  | nil =>
    intro acc r _
    simp [splitOnAux, splitOn]
  | cons x t' ih =>
    intro acc r h
    have hx : ¬ x = sep := by
      intro hxe
      exact h (by simp [hxe])
    simp only [List.cons_append, splitOnAux, if_neg hx, List.append_eq]
    rw [ih (x :: acc) r (fun hm => h (List.mem_cons_of_mem x hm))]
    simp

/-- `joinSep` of a two-or-more element list. -/
theorem joinSep_cons_cons (t u : Str) (ts : List Str) :
    joinSep (t :: u :: ts) = t ++ sep :: joinSep (u :: ts) := rfl

/-- `joinSep` of a singleton. -/
theorem joinSep_single (t : Str) : joinSep [t] = t := by
  simp [joinSep]

/-- `split` undoes `join` on a non-empty list of separator-free pieces. -/
theorem splitOn_joinSep : ∀ (l : List Str), l ≠ [] → (∀ t ∈ l, sep ∉ t) →
    splitOn (joinSep l) = l := by
  intro l
  induction l with
  | nil => intro h; exact absurd rfl h
  | cons t ts ih =>
    intro _ hfree
    cases ts with
    | nil => rw [joinSep_single]; exact splitOn_of_no_sep t (hfree t (by simp))
    | cons u ts' =>
      rw [joinSep_cons_cons, splitOn, splitOnAux_append_sep t [] _ (hfree t (by simp))]
      rw [show splitOn (joinSep (u :: ts')) = u :: ts' from
        ih (by simp) (fun x hx => hfree x (List.mem_cons_of_mem t hx))]
      simp

/-- Splitting a string with a non-separator head char: the head char
leads the first piece. -/
theorem splitOn_cons_of_head_ne (x : Char) (xs : Str) (hx : ¬ x = sep) :
    splitOn (x :: xs) = (x :: (splitOn xs).headD []) :: (splitOn xs).tail := by
  rw [splitOn]
  simp only [splitOnAux, if_neg hx]
  rw [splitOnAux_acc xs [x]]
  simp [splitOn]

/-- A string containing the separator decomposes around its first one. -/
theorem exists_decomp_of_mem_sep : ∀ (s : Str), sep ∈ s →
    ∃ t r, sep ∉ t ∧ s = t ++ sep :: r := by
  intro s
  induction s with
  | nil => intro h; simp at h
  | cons x xs ih =>
    intro h
    by_cases hx : x = sep
    · exact ⟨[], xs, by simp, by rw [hx]; simp⟩
    · have hmem : sep ∈ xs := by
        rcases List.mem_cons.mp h with h1 | h2
        · exact absurd h1.symm hx
        · exact h2
      obtain ⟨t, r, hf, he⟩ := ih hmem
      refine ⟨x :: t, r, ?_, by rw [he]; simp⟩
      simp only [List.mem_cons, not_or]
      exact ⟨fun hh => hx hh.symm, hf⟩

/-- A string containing the separator splits into at least two pieces. -/
theorem splitOn_length_gt_one_of_mem (s : Str) (h : sep ∈ s) :
    (splitOn s).length > 1 := by
  obtain ⟨t, r, hf, he⟩ := exists_decomp_of_mem_sep s h
  subst he
  rw [splitOn, splitOnAux_append_sep t [] r hf]
  have := splitOn_ne_nil r
  simp only [List.length_cons, gt_iff_lt]
  have hr : 0 < (splitOn r).length := List.length_pos.mpr this
  omega

/-- A string free of the separator splits into exactly one piece. -/
theorem splitOn_length_le_one_of_not_mem (s : Str) (h : sep ∉ s) :
    ¬ (splitOn s).length > 1 := by
  rw [splitOn_of_no_sep s h]
  simp

/-! ### Lemmas about `pyStrip` -/

/-- Trailing whitespace is invisible to `dropTrailing`. -/
theorem dropTrailing_append_ws (s w : Str) (hw : ∀ c ∈ w, isPySpace c) :
    dropTrailing (s ++ w) = dropTrailing s := by
  rw [dropTrailing, dropTrailing, List.reverse_append]
  rw [List.dropWhile_append_of_pos (fun a ha => hw a (List.mem_reverse.mp ha))]

/-- Trailing whitespace is invisible to `pyStrip`. -/
theorem pyStrip_append_ws (s w : Str) (hw : ∀ c ∈ w, isPySpace c) :
    pyStrip (s ++ w) = pyStrip s := by
  rw [pyStrip, pyStrip, List.dropWhile_append]
  by_cases hs : (s.dropWhile isPySpace).isEmpty
  · have hwdrop : w.dropWhile isPySpace = [] := by
      rw [List.dropWhile_eq_nil_iff]
      exact fun x hx => hw x hx
    have hsdrop : s.dropWhile isPySpace = [] := by
      rwa [List.isEmpty_iff] at hs
    simp [hs, hwdrop, hsdrop]
  · simp only [hs, if_false, Bool.false_eq_true]
    exact dropTrailing_append_ws _ w hw

/-- A string ending in a non-whitespace character is untouched by
`dropTrailing`. -/
theorem dropTrailing_eq_self (s : Str) (y : Char) (hy : s.getLast? = some y)
    (hys : isPySpace y = false) : dropTrailing s = s := by
  rw [dropTrailing]
  have hhead : s.reverse.head? = some y := by rw [List.head?_reverse]; exact hy
  have hdrop : s.reverse.dropWhile isPySpace = s.reverse := by
    cases hrev : s.reverse with
    | nil => simp
    | cons a t =>
      have ha : a = y := by rw [hrev] at hhead; simpa using hhead
      exact List.dropWhile_cons_of_neg (by rw [ha, hys]; simp)
  rw [hdrop, List.reverse_reverse]

/-- A string with non-whitespace first and last characters is untouched
by `pyStrip`. -/
theorem pyStrip_eq_self (s : Str) (x y : Char) (hx : s.head? = some x)
    (hxs : isPySpace x = false) (hy : s.getLast? = some y)
    (hys : isPySpace y = false) : pyStrip s = s := by
  rw [pyStrip]
  have hdrop : s.dropWhile isPySpace = s := by
    cases hs : s with
    | nil => simp
    | cons a t =>
      rw [hs] at hx
      have ha : a = x := by simpa using hx
      exact List.dropWhile_cons_of_neg (by rw [ha, hxs]; simp)
  rw [hdrop]
  exact dropTrailing_eq_self s y hy hys

/-! ### Lemmas about paths and the filesystem -/

/-- Joining a non-absolute raw string appends its non-empty pieces. -/
theorem pathJoinStr_of_not_abs (p : PyPath) (s : Str)
    (h : startsWithSep s = false) :
    pathJoinStr p s = ⟨p.isAbsolute, p.parts ++ keepNonempty (splitOn s)⟩ := by
  rw [pathJoinStr, h]
  simp

/-- A separator-free string does not start with the separator. -/
theorem startsWithSep_of_no_sep (t : Str) (h : sep ∉ t) :
    startsWithSep t = false := by
  cases t with
  | nil => rfl
  | cons c r =>
    have hc : ¬ c = sep := fun hce => h (by simp [hce])
    simp [startsWithSep, hc]

/-- A join whose first piece starts with a non-separator character does
not start with the separator. -/
theorem startsWithSep_joinSep_cons (x : Char) (t : Str) (ts : List Str)
    (hx : ¬ x = sep) : startsWithSep (joinSep ((x :: t) :: ts)) = false := by
  cases ts <;> simp [joinSep, startsWithSep, hx]

/-- Joining a single separator-free non-empty component appends exactly
that component. -/
theorem pathJoinStr_single (p : PyPath) (t : Str) (hfree : sep ∉ t)
    (hne : t ≠ []) : pathJoinStr p t = ⟨p.isAbsolute, p.parts ++ [t]⟩ := by
  rw [pathJoinStr_of_not_abs p t (startsWithSep_of_no_sep t hfree)]
  rw [splitOn_of_no_sep t hfree]
  simp [keepNonempty, List.isEmpty_iff, hne]

/-- Every path is among its own prefixes. -/
theorem self_mem_prefixesOf (p : PyPath) : p ∈ prefixesOf p := by
  rw [prefixesOf]
  refine List.mem_map.mpr ⟨p.parts.length, ?_, ?_⟩
  · simp
  · simp

/-- `FileCreator._create_empty_file` always succeeds: the parent
directory is created first; afterwards the file exists, holding its old
contents if it existed and empty contents otherwise, and every other
file is untouched. -/
theorem create_empty_file_spec (p : PyPath) (fs : FS) :
    ∃ fs1, create_empty_file p fs = .ok fs1 ∧
      fs1.dirs = prefixesOf (parentPath p) ++ fs.dirs ∧
      findContents p fs1.files = some ((findContents p fs.files).getD []) ∧
      (∀ q, q ≠ p → findContents q fs1.files = findContents q fs.files) := by
  rw [create_empty_file, mkdirParents, touch]
  have hparent : parentPath p ∈ prefixesOf (parentPath p) ++ fs.dirs :=
    List.mem_append_left _ (self_mem_prefixesOf _)
  rw [if_pos hparent]
  cases hfind : findContents p fs.files with
  | some s =>
    refine ⟨_, rfl, rfl, ?_, fun q _ => rfl⟩
    simp [hfind]
  | none =>
    refine ⟨_, rfl, rfl, ?_, ?_⟩
    · simp [findContents, hfind]
    · intro q hq
      simp only [findContents]
      rw [if_neg (fun he => hq he.symm)]

/-! ### Lemmas about the parser -/

/-- The parsed name is the last segment of the split input. -/
theorem parse_name_eq (SRC_DIR : PyPath) (s : Str) (b : BaseFolder) :
    (parse_as_element SRC_DIR s b).name = (splitOn s).getLastD [] := rfl

/-- The parsed name never contains a path separator. -/
theorem parse_name_sep_free (SRC_DIR : PyPath) (s : Str) (b : BaseFolder) :
    sep ∉ (parse_as_element SRC_DIR s b).name := by
  rw [parse_name_eq]
  have hne := splitOn_ne_nil s
  have hmem : (splitOn s).getLastD [] ∈ splitOn s := by
    rw [List.getLastD_eq_getLast?, List.getLast?_eq_getLast _ hne]
    simp
  exact splitOn_sep_free s _ hmem

/-- Neither base category string contains the separator. -/
theorem baseFolderStr_sep_free (b : BaseFolder) : sep ∉ baseFolderStr b := by
  cases b <;> decide

/-- Neither base category string is empty. -/
theorem baseFolderStr_ne_nil (b : BaseFolder) : baseFolderStr b ≠ [] := by
  cases b <;> decide

/-- The parser's `full_path` unfolded. -/
theorem parse_full_path_unfold (SRC_DIR : PyPath) (s : Str) (b : BaseFolder) :
    (parse_as_element SRC_DIR s b).full_path
      = pathJoinStr (pathJoinStr SRC_DIR (baseFolderStr b))
          (if (splitOn s).length > 1 then joinSep (splitOn s).dropLast
           else (splitOn s).getLastD []) := rfl

/-- For any input that does not itself start with `"/"`, the parser's
directory agrees with the directory the spec describes. -/
theorem parse_full_path_eq (SRC_DIR : PyPath) (s : Str) (b : BaseFolder)
    (h : startsWithSep s = false) :
    (parse_as_element SRC_DIR s b).full_path = spec_directory SRC_DIR b s := by
  have hbase : pathJoinStr SRC_DIR (baseFolderStr b)
      = ⟨SRC_DIR.isAbsolute, SRC_DIR.parts ++ [baseFolderStr b]⟩ :=
    pathJoinStr_single SRC_DIR _ (baseFolderStr_sep_free b) (baseFolderStr_ne_nil b)
  rw [parse_full_path_unfold, hbase]
  by_cases hsep : sep ∈ s
  · cases hs : s with
    | nil => rw [hs] at hsep; simp at hsep
    | cons x xs =>
      subst hs
      have hx : ¬ x = sep := by simpa [startsWithSep] using h
      have hlen := splitOn_length_gt_one_of_mem (x :: xs) hsep
      have hsplit := splitOn_cons_of_head_ne x xs hx
      rw [hsplit] at hlen
      cases ht0 : (splitOn xs).tail with
      | nil => rw [ht0] at hlen; simp at hlen
      | cons u t0 =>
        rw [ht0] at hsplit
        have hgt : ((x :: (splitOn xs).headD []) :: u :: t0).length > 1 := by
          simp
        rw [hsplit, if_pos hgt, List.dropLast_cons₂]
        have hfree : ∀ t ∈ (x :: (splitOn xs).headD []) :: (u :: t0).dropLast,
            sep ∉ t := by
          intro t htm
          apply splitOn_sep_free (x :: xs)
          rw [hsplit]
          exact List.dropLast_subset _ (by rw [List.dropLast_cons₂]; exact htm)
        have hnostart : startsWithSep
            (joinSep ((x :: (splitOn xs).headD []) :: (u :: t0).dropLast)) = false :=
          startsWithSep_joinSep_cons x _ _ hx
        rw [pathJoinStr_of_not_abs _ _ hnostart]
        rw [splitOn_joinSep _ (by simp) hfree]
        rw [show spec_directory SRC_DIR b (x :: xs)
            = ⟨SRC_DIR.isAbsolute, SRC_DIR.parts ++ baseFolderStr b ::
                keepNonempty (if (splitOn (x :: xs)).length > 1
                  then (splitOn (x :: xs)).dropLast
                  else [(splitOn (x :: xs)).getLastD []])⟩ from rfl]
        rw [hsplit, if_pos hgt, List.dropLast_cons₂]
        simp [List.append_assoc]
  · have hone : ¬ (splitOn s).length > 1 := by
      rw [splitOn_of_no_sep s hsep]
      simp
    rw [if_neg hone]
    rw [show spec_directory SRC_DIR b s
        = ⟨SRC_DIR.isAbsolute, SRC_DIR.parts ++ baseFolderStr b ::
            keepNonempty (if (splitOn s).length > 1
              then (splitOn s).dropLast
              else [(splitOn s).getLastD []])⟩ from rfl]
    rw [if_neg hone]
    have hlast : (splitOn s).getLastD [] = s := by
      rw [splitOn_of_no_sep s hsep]
      simp
    rw [hlast, pathJoinStr_of_not_abs _ s h, splitOn_of_no_sep s hsep]
    simp [List.append_assoc]

/-! ### Lemmas about the script-file template -/

/-- The raw template is the described content plus trailing whitespace. -/
theorem tsx_template_eq (N : Str) :
    tsx_template N = tsx_content_described N ++ str ("\n        ") := by
  simp [tsx_template, tsx_content_described, List.append_assoc]

/-- The last character of an append whose right part ends in `y` is `y`. -/
theorem getLast?_append_right (l m : Str) (y : Char) (hm : m.getLast? = some y) :
    (l ++ m).getLast? = some y := by
  rw [List.getLast?_append, hm]
  rfl

/-- For a name whose last character is not whitespace, stripping the
template yields exactly the described content. -/
theorem tsx_strip (N : Str) (y : Char) (hy : N.getLast? = some y)
    (hys : isPySpace y = false) :
    pyStrip (tsx_template N) = tsx_content_described N := by
  rw [tsx_template_eq]
  rw [pyStrip_append_ws _ _ (by decide)]
  refine pyStrip_eq_self _ 'i' y ?_ (by decide) ?_ hys
  · rw [tsx_content_described]
    simp [str]
  · rw [tsx_content_described]
    exact getLast?_append_right _ _ y hy

/-! ### Specifications of the three file creators -/

/-- `write_text` succeeds when the parent directory exists. -/
theorem write_text_ok (p : PyPath) (s : Str) (fs : FS)
    (h : parentPath p ∈ fs.dirs) :
    write_text p s fs = .ok { fs with files := (p, s) :: fs.files } := by
  rw [write_text, if_pos h]

/-- `FileCreator.create` runs the content step on the initialised state. -/
theorem creator_create_eq (filename : Element → PyPath)
    (write_contents : Element → FS → Except (Str × FS) FS)
    (e : Element) (fs fs1 : FS)
    (h : create_empty_file (filename e) fs = .ok fs1) :
    creator_create filename write_contents e fs = write_contents e fs1 := by
  rw [creator_create, h]
  rfl

/-- Looking up the file just written. -/
theorem findContents_cons_self (p : PyPath) (s : Str) (l : List (PyPath × Str)) :
    findContents p ((p, s) :: l) = some s := by
  simp [findContents]

/-- Looking up a different file after a write. -/
theorem findContents_cons_ne (p q : PyPath) (s : Str) (l : List (PyPath × Str))
    (h : q ≠ p) : findContents q ((p, s) :: l) = findContents q l := by
  simp only [findContents]
  rw [if_neg (fun he => h he.symm)]

/-- `TSXFileCreator.create` always succeeds and unconditionally replaces
the script file's contents with the stripped template; no other file
changes. -/
theorem tsx_create_spec (e : Element) (fs : FS) :
    ∃ fs2, tsx_create e fs = .ok fs2 ∧
      findContents (tsx_absolute_filename e) fs2.files
        = some (pyStrip (tsx_template e.name)) ∧
      (∀ q, q ≠ tsx_absolute_filename e →
        findContents q fs2.files = findContents q fs.files) := by
  obtain ⟨fs1, hok, hdirs, _, hframe⟩ :=
    create_empty_file_spec (tsx_absolute_filename e) fs
  have hpar : parentPath (tsx_absolute_filename e) ∈ fs1.dirs := by
    rw [hdirs]
    exact List.mem_append_left _ (self_mem_prefixesOf _)
  refine ⟨{ fs1 with files :=
      (tsx_absolute_filename e, pyStrip (tsx_template e.name)) :: fs1.files },
    ?_, ?_, ?_⟩
  · rw [tsx_create, creator_create_eq _ _ e fs fs1 hok, tsx_write_contents,
      write_text_ok _ _ _ hpar]
  · exact findContents_cons_self _ _ _
  · intro q hq
    rw [findContents_cons_ne _ _ _ _ hq]
    exact hframe q hq

/-- `CSSFileCreator.create` always succeeds, writes no content (the file
is created empty when absent, and its contents survive unchanged when
present); no other file changes. -/
theorem css_create_spec (e : Element) (fs : FS) :
    ∃ fs1, css_create e fs = .ok fs1 ∧
      findContents (css_absolute_filename e) fs1.files
        = some ((findContents (css_absolute_filename e) fs.files).getD []) ∧
      (∀ q, q ≠ css_absolute_filename e →
        findContents q fs1.files = findContents q fs.files) := by
  obtain ⟨fs1, hok, _, hfile, hframe⟩ :=
    create_empty_file_spec (css_absolute_filename e) fs
  refine ⟨fs1, ?_, hfile, hframe⟩
  rw [css_create, creator_create_eq _ _ e fs fs1 hok, css_write_contents]

/-- `IndexFileCreator.create` always succeeds; it writes the re-export
line when the file was absent, empty or whitespace-only, and leaves the
existing contents alone otherwise; no other file changes. -/
theorem index_create_spec (e : Element) (fs : FS) :
    ∃ fs2, index_create e fs = .ok fs2 ∧
      (pyStrip ((findContents (index_absolute_filename e) fs.files).getD []) = [] →
        findContents (index_absolute_filename e) fs2.files
          = some (index_export_line e.name)) ∧
      (pyStrip ((findContents (index_absolute_filename e) fs.files).getD []) ≠ [] →
        findContents (index_absolute_filename e) fs2.files
          = findContents (index_absolute_filename e) fs.files) ∧
      (∀ q, q ≠ index_absolute_filename e →
        findContents q fs2.files = findContents q fs.files) := by
  obtain ⟨fs1, hok, hdirs, hfile, hframe⟩ :=
    create_empty_file_spec (index_absolute_filename e) fs
  have hpar : parentPath (index_absolute_filename e) ∈ fs1.dirs := by
    rw [hdirs]
    exact List.mem_append_left _ (self_mem_prefixesOf _)
  have hcreate : index_create e fs = index_write_contents e fs1 :=
    creator_create_eq _ _ e fs fs1 hok
  have hread : read_text (index_absolute_filename e) fs1
      = .ok ((findContents (index_absolute_filename e) fs.files).getD []) := by
    rw [read_text, hfile]
  by_cases hblank :
      pyStrip ((findContents (index_absolute_filename e) fs.files).getD []) = []
  · refine ⟨{ fs1 with files :=
        (index_absolute_filename e, index_export_line e.name) :: fs1.files },
      ?_, fun _ => ?_, fun hmem => absurd hblank hmem, ?_⟩
    · rw [hcreate, index_write_contents, hread]
      show (if pyStrip ((findContents (index_absolute_filename e) fs.files).getD [])
          ≠ [] then Except.ok fs1
          else write_text (index_absolute_filename e) (index_export_line e.name) fs1)
        = _
      rw [if_neg (fun hne => hne hblank), write_text_ok _ _ _ hpar]
    · exact findContents_cons_self _ _ _
    · intro q hq
      rw [findContents_cons_ne _ _ _ _ hq]
      exact hframe q hq
  · refine ⟨fs1, ?_, fun hco => absurd hco hblank, fun _ => ?_, hframe⟩
    · rw [hcreate, index_write_contents, hread]
      show (if pyStrip ((findContents (index_absolute_filename e) fs.files).getD [])
          ≠ [] then Except.ok fs1
          else write_text (index_absolute_filename e) (index_export_line e.name) fs1)
        = _
      rw [if_pos hblank]
    · cases hold : findContents (index_absolute_filename e) fs.files with
      | none =>
        rw [hold] at hblank
        simp [pyStrip, dropTrailing] at hblank
      | some s =>
        rw [hold] at hfile
        rw [hfile]
        rfl

/-! ### Lemmas about the prompts and `main` -/

/-- A `"y"` or empty answer (after strip/lower) confirms. -/
theorem ask_ok_confirm_eq (line : Str) (rest : List Str)
    (h : pyLower (pyStrip line) = str ("y") ∨ pyLower (pyStrip line) = []) :
    ask_ok (line :: rest) = .confirmed rest := by
  show (if pyLower (pyStrip line) = str ("y") ∨ pyLower (pyStrip line) = []
      then ConfirmResult.confirmed rest
      else if pyLower (pyStrip line) = str ("n")
        then ConfirmResult.exited pyExitStatusOfMessage cancelMessage
        else ask_ok rest) = _
  rw [if_pos h]

/-- An `"n"` answer (after strip/lower) exits with status 1 and the
cancellation message. -/
theorem ask_ok_decline_eq (line : Str) (rest : List Str)
    (h : pyLower (pyStrip line) = str ("n")) :
    ask_ok (line :: rest) = .exited 1 cancelMessage := by
  show (if pyLower (pyStrip line) = str ("y") ∨ pyLower (pyStrip line) = []
      then ConfirmResult.confirmed rest
      else if pyLower (pyStrip line) = str ("n")
        then ConfirmResult.exited pyExitStatusOfMessage cancelMessage
        else ask_ok rest) = _
  rw [if_neg (by rw [h]; decide), if_pos h]
  rfl

/-- Any other answer re-prompts: the loop continues on the rest. -/
theorem ask_ok_retry_eq (line : Str) (rest : List Str)
    (h1 : ¬(pyLower (pyStrip line) = str ("y") ∨ pyLower (pyStrip line) = []))
    (h2 : ¬ pyLower (pyStrip line) = str ("n")) :
    ask_ok (line :: rest) = ask_ok rest := by
  show (if pyLower (pyStrip line) = str ("y") ∨ pyLower (pyStrip line) = []
      then ConfirmResult.confirmed rest
      else if pyLower (pyStrip line) = str ("n")
        then ConfirmResult.exited pyExitStatusOfMessage cancelMessage
        else ask_ok rest) = _
  rw [if_neg h1, if_neg h2]

/-- A `"c"` answer (after strip/lower) selects the components category. -/
theorem ask_base_folder_c_eq (line : Str) (rest : List Str)
    (h : pyLower (pyStrip line) = str ("c")) :
    ask_base_folder (line :: rest) = some (.components, rest) := by
  show (if pyLower (pyStrip line) = str ("c")
      then some (BaseFolder.components, rest)
      else if pyLower (pyStrip line) = str ("p")
        then some (BaseFolder.pages, rest)
        else ask_base_folder rest) = _
  rw [if_pos h]

/-- A `"p"` answer (after strip/lower) selects the pages category. -/
theorem ask_base_folder_p_eq (line : Str) (rest : List Str)
    (h : pyLower (pyStrip line) = str ("p")) :
    ask_base_folder (line :: rest) = some (.pages, rest) := by
  show (if pyLower (pyStrip line) = str ("c")
      then some (BaseFolder.components, rest)
      else if pyLower (pyStrip line) = str ("p")
        then some (BaseFolder.pages, rest)
        else ask_base_folder rest) = _
  rw [if_neg (by rw [h]; decide), if_pos h]

/-- Any other answer re-prompts: the loop continues on the rest. -/
theorem ask_base_folder_retry_eq (line : Str) (rest : List Str)
    (h1 : ¬ pyLower (pyStrip line) = str ("c"))
    (h2 : ¬ pyLower (pyStrip line) = str ("p")) :
    ask_base_folder (line :: rest) = ask_base_folder rest := by
  show (if pyLower (pyStrip line) = str ("c")
      then some (BaseFolder.components, rest)
      else if pyLower (pyStrip line) = str ("p")
        then some (BaseFolder.pages, rest)
        else ask_base_folder rest) = _
  rw [if_neg h1, if_neg h2]

/-- When the confirmation loop exits, `main` reports the cancellation
with the untouched pre-run filesystem. -/
theorem main_cancel_eq (SRC_DIR : PyPath) (stdin : List Str) (fs : FS)
    (bf : BaseFolder) (element_line : Str) (rest2 : List Str)
    (code : Nat) (msg : Str)
    (h1 : ask_base_folder stdin = some (bf, element_line :: rest2))
    (h2 : ask_ok rest2 = .exited code msg) :
    main SRC_DIR stdin fs = .cancelled code msg fs := by
  simp only [main, h1, h2]

/-- `ElementFilesCreator.create` never fails in the model: each creator
makes its parent directory before touching and writing. -/
theorem element_files_create_ok (e : Element) (fs : FS) :
    ∃ fs3, element_files_create e fs = .ok fs3 := by
  obtain ⟨fs1, h1, _, _⟩ := tsx_create_spec e fs
  obtain ⟨fs2, h2, _, _⟩ := css_create_spec e fs1
  obtain ⟨fs3, h3, _, _, _⟩ := index_create_spec e fs2
  refine ⟨fs3, ?_⟩
  show (tsx_create e fs >>= fun fs1p =>
    css_create e fs1p >>= fun fs2p => index_create e fs2p) = Except.ok fs3
  rw [h1]
  show (css_create e fs1 >>= fun fs2p => index_create e fs2p) = Except.ok fs3
  rw [h2]
  exact h3

/-- A completed run of `main` always carries exit code 0. -/
theorem main_completed_code (SRC_DIR : PyPath) (stdin : List Str) (fs : FS)
    (c : Nat) (fs2 : FS) (h : main SRC_DIR stdin fs = .completed c fs2) :
    c = 0 := by
  unfold main at h
  split at h <;> (try split at h) <;> (try split at h) <;> try simp_all
  rename_i bf ts hd tl h1 x r h2
  obtain ⟨fs3, hefc⟩ := element_files_create_ok (parse_as_element SRC_DIR (pyStrip hd) bf) fs
  rw [hefc] at h
  simp_all

/-! ### Claim theorems -/

/-- C1 (amended): for every base category, root and input string that
does not itself begin with `"/"`, the parser takes the last
`"/"`-separated segment of the input as the element name, and the
element's directory is `<root>/<B>/<all segments except the last joined
by "/">` when the input has more than one segment, and
`<root>/<B>/<that same segment>` when it has exactly one — as stated by
`spec_directory`.  The original claim quantified over all raw inputs;
inputs beginning with `"/"` make the `pathlib` join discard the
`<root>/<B>` prefix, see the counterexample. -/
theorem claim_C1_parser_directory (SRC_DIR : PyPath) (s : Str) (b : BaseFolder)
    (h : startsWithSep s = false) :
    (parse_as_element SRC_DIR s b).name = (splitOn s).getLastD [] ∧
    (parse_as_element SRC_DIR s b).full_path = spec_directory SRC_DIR b s :=
  ⟨parse_name_eq SRC_DIR s b, parse_full_path_eq SRC_DIR s b h⟩

/-- C1 counterexample: for the input `"/a/b"` the produced directory is
the absolute path `/a`, not `<root>/components/a` as the claim's
`<root>/<B>/<P>` formula demands. -/
theorem claim_C1_counterexample :
    (parse_as_element ⟨true, [str ("r")]⟩ (str ("/a/b")) .components).name
        = str ("b") ∧
    (parse_as_element ⟨true, [str ("r")]⟩ (str ("/a/b")) .components).full_path
        ≠ spec_directory ⟨true, [str ("r")]⟩ .components (str ("/a/b")) ∧
    (parse_as_element ⟨true, [str ("r")]⟩ (str ("/a/b")) .components).full_path
        = ⟨true, [str ("a")]⟩ := by
  decide

/-- C1 witness: the nested example from the spec. -/
theorem claim_C1_witness :
    (parse_as_element ⟨true, [str ("app")]⟩ (str ("MyCourses/AuthorCourses"))
        .pages).name
      = (splitOn (str ("MyCourses/AuthorCourses"))).getLastD [] ∧
    (parse_as_element ⟨true, [str ("app")]⟩ (str ("MyCourses/AuthorCourses"))
        .pages).full_path
      = spec_directory ⟨true, [str ("app")]⟩ .pages
          (str ("MyCourses/AuthorCourses")) :=
  claim_C1_parser_directory ⟨true, [str ("app")]⟩ (str ("MyCourses/AuthorCourses"))
    .pages (by decide)

/-- C8 (amended): for every root, input string and base category, the
parsed element's name contains no path separator, and — provided the
input does not itself begin with `"/"` — its `full_path` stays rooted
under `<root>/components` or `<root>/pages`.  The original claim also
asserted the name is non-empty and did not restrict the input; the
counterexample shows an empty name for empty input and an escaped root
for an input beginning with `"/"`. -/
theorem claim_C8_element_invariant (SRC_DIR : PyPath) (s : Str) (b : BaseFolder) :
    sep ∉ (parse_as_element SRC_DIR s b).name ∧
    (startsWithSep s = false →
      (parse_as_element SRC_DIR s b).full_path.isAbsolute = SRC_DIR.isAbsolute ∧
      ∃ tail, (parse_as_element SRC_DIR s b).full_path.parts
        = SRC_DIR.parts ++ baseFolderStr b :: tail) := by
  refine ⟨parse_name_sep_free SRC_DIR s b, fun h => ⟨?_, ?_⟩⟩
  · rw [parse_full_path_eq SRC_DIR s b h, spec_directory]
  · rw [parse_full_path_eq SRC_DIR s b h, spec_directory]
    exact ⟨_, rfl⟩

/-- C8 counterexample: empty input gives an element whose name is the
empty string, and input `"/a/b"` gives a `full_path` that is not rooted
under the base category. -/
theorem claim_C8_counterexample :
    (parse_as_element ⟨true, [str ("r")]⟩ (str ("")) .components).name = [] ∧
    (parse_as_element ⟨true, [str ("r")]⟩ (str ("/a/b"))
        .components).full_path.parts.take 2
      ≠ [str ("r"), str ("components")] := by
  decide

/-- C8 witness: a plain single-segment input, with the rooted-path
conjunct's proviso discharged. -/
theorem claim_C8_witness :
    sep ∉ (parse_as_element ⟨true, [str ("app")]⟩ (str ("Button")) .components).name ∧
    (parse_as_element ⟨true, [str ("app")]⟩ (str ("Button"))
        .components).full_path.isAbsolute = (⟨true, [str ("app")]⟩ : PyPath).isAbsolute ∧
    (∃ tail, (parse_as_element ⟨true, [str ("app")]⟩ (str ("Button"))
        .components).full_path.parts
      = (⟨true, [str ("app")]⟩ : PyPath).parts ++ baseFolderStr .components :: tail) :=
  ⟨(claim_C8_element_invariant ⟨true, [str ("app")]⟩ (str ("Button")) .components).1,
    (claim_C8_element_invariant ⟨true, [str ("app")]⟩ (str ("Button"))
      .components).2 (by decide)⟩

/-- C2: for every element, after `IndexFileCreator.create` runs, the
index file's content is exactly `export {default} from "./<name>";`
when the file was absent, empty or whitespace-only beforehand, and is
left unchanged when it already held non-blank text. -/
theorem claim_C2_index_policy (e : Element) (fs : FS) :
    (pyStrip ((findContents (index_absolute_filename e) fs.files).getD []) = [] →
      ∃ fs2, index_create e fs = .ok fs2 ∧
        findContents (index_absolute_filename e) fs2.files
          = some (index_export_line e.name)) ∧
    (∀ s, findContents (index_absolute_filename e) fs.files = some s →
      pyStrip s ≠ [] →
      ∃ fs2, index_create e fs = .ok fs2 ∧
        findContents (index_absolute_filename e) fs2.files = some s) := by
  obtain ⟨fs2, hok, hblank, hnonblank, _⟩ := index_create_spec e fs
  constructor
  · intro hb
    exact ⟨fs2, hok, hblank hb⟩
  · intro s hs hsnb
    refine ⟨fs2, hok, ?_⟩
    have hne : pyStrip ((findContents (index_absolute_filename e) fs.files).getD [])
        ≠ [] := by
      rw [hs]
      exact hsnb
    rw [hnonblank hne, hs]

/-- C2 witness: on an empty filesystem the index file receives the
re-export line for `Button`. -/
theorem claim_C2_witness :
    ∃ fs2, index_create ⟨⟨true, [str ("app")]⟩, str ("Button")⟩ ⟨[], []⟩ = .ok fs2 ∧
      findContents (index_absolute_filename ⟨⟨true, [str ("app")]⟩, str ("Button")⟩)
          fs2.files
        = some (index_export_line (str ("Button"))) :=
  (claim_C2_index_policy ⟨⟨true, [str ("app")]⟩, str ("Button")⟩ ⟨[], []⟩).1 (by decide)

/-- C3 (amended): for every element whose name is non-empty and does
not end in a whitespace character — which covers every name the parser
derives from inputs whose last segment ends in a visible character —
`TSXFileCreator.create` fully replaces the script file's content,
whatever the file held before, with exactly the described template:
style import, `<name>Props` container, component `<name>` rendering the
literal text `<name>`, and a default export of `<name>`; no other file
changes.  The original claim quantified over all elements; for the
degenerate empty name the final `.strip()` also eats the space after
`export default`, see the counterexample. -/
theorem claim_C3_script_overwrite (e : Element) (fs : FS) (y : Char)
    (h1 : e.name.getLast? = some y) (h2 : isPySpace y = false) :
    ∃ fs2, tsx_create e fs = .ok fs2 ∧
      findContents (tsx_absolute_filename e) fs2.files
        = some (tsx_content_described e.name) ∧
      (∀ q, q ≠ tsx_absolute_filename e →
        findContents q fs2.files = findContents q fs.files) := by
  obtain ⟨fs2, hok, hcontent, hframe⟩ := tsx_create_spec e fs
  exact ⟨fs2, hok, by rw [hcontent, tsx_strip e.name y h1 h2], hframe⟩

/-- C3 counterexample: for the element with the empty name the script
file is written, but its content is not the described template — the
trailing strip removes the space after `export default`. -/
theorem claim_C3_counterexample :
    tsx_create ⟨⟨true, [str ("ui")]⟩, []⟩ ⟨[], []⟩
      = .ok ⟨[⟨true, []⟩, ⟨true, [str ("ui")]⟩],
          [(⟨true, [str ("ui"), str (".tsx")]⟩, pyStrip (tsx_template [])),
           (⟨true, [str ("ui"), str (".tsx")]⟩, [])]⟩ ∧
    pyStrip (tsx_template []) ≠ tsx_content_described [] := by
  exact ⟨rfl, by decide⟩

/-- C3 witness: the `Button` element on an empty filesystem. -/
theorem claim_C3_witness :
    ∃ fs2, tsx_create ⟨⟨true, [str ("app")]⟩, str ("Button")⟩ ⟨[], []⟩ = .ok fs2 ∧
      findContents (tsx_absolute_filename ⟨⟨true, [str ("app")]⟩, str ("Button")⟩)
          fs2.files
        = some (tsx_content_described (str ("Button"))) ∧
      (∀ q, q ≠ tsx_absolute_filename ⟨⟨true, [str ("app")]⟩, str ("Button")⟩ →
        findContents q fs2.files = findContents q (FS.mk [] []).files) :=
  claim_C3_script_overwrite ⟨⟨true, [str ("app")]⟩, str ("Button")⟩ ⟨[], []⟩ 'n'
    (by decide) (by decide)

/-- C4: `CSSFileCreator.create` never writes content: an absent style
file is created empty, an existing one keeps its content exactly, no
other file is touched, and a second run behaves the same. -/
theorem claim_C4_style_untouched (e : Element) (fs : FS) :
    ∃ fs1 fs2, css_create e fs = .ok fs1 ∧ css_create e fs1 = .ok fs2 ∧
      (findContents (css_absolute_filename e) fs.files = none →
        findContents (css_absolute_filename e) fs1.files = some [] ∧
        findContents (css_absolute_filename e) fs2.files = some []) ∧
      (∀ s, findContents (css_absolute_filename e) fs.files = some s →
        findContents (css_absolute_filename e) fs1.files = some s ∧
        findContents (css_absolute_filename e) fs2.files = some s) ∧
      (∀ q, q ≠ css_absolute_filename e →
        findContents q fs1.files = findContents q fs.files) := by
  obtain ⟨fs1, h1, hc1, hf1⟩ := css_create_spec e fs
  obtain ⟨fs2, h2, hc2, _⟩ := css_create_spec e fs1
  refine ⟨fs1, fs2, h1, h2, ?_, ?_, hf1⟩
  · intro hn
    have e1 : findContents (css_absolute_filename e) fs1.files = some [] := by
      rw [hc1, hn]
      rfl
    have e2 : findContents (css_absolute_filename e) fs2.files = some [] := by
      rw [hc2, e1]
      rfl
    exact ⟨e1, e2⟩
  · intro s hs
    have e1 : findContents (css_absolute_filename e) fs1.files = some s := by
      rw [hc1, hs]
      rfl
    have e2 : findContents (css_absolute_filename e) fs2.files = some s := by
      rw [hc2, e1]
      rfl
    exact ⟨e1, e2⟩

/-- C4 witness: the `Button` element on an empty filesystem. -/
theorem claim_C4_witness :
    ∃ fs1 fs2, css_create ⟨⟨true, [str ("app")]⟩, str ("Button")⟩ ⟨[], []⟩
        = .ok fs1 ∧
      css_create ⟨⟨true, [str ("app")]⟩, str ("Button")⟩ fs1 = .ok fs2 ∧
      (findContents (css_absolute_filename ⟨⟨true, [str ("app")]⟩, str ("Button")⟩)
          (FS.mk [] []).files = none →
        findContents (css_absolute_filename ⟨⟨true, [str ("app")]⟩, str ("Button")⟩)
          fs1.files = some [] ∧
        findContents (css_absolute_filename ⟨⟨true, [str ("app")]⟩, str ("Button")⟩)
          fs2.files = some []) ∧
      (∀ s, findContents (css_absolute_filename ⟨⟨true, [str ("app")]⟩, str ("Button")⟩)
          (FS.mk [] []).files = some s →
        findContents (css_absolute_filename ⟨⟨true, [str ("app")]⟩, str ("Button")⟩)
          fs1.files = some s ∧
        findContents (css_absolute_filename ⟨⟨true, [str ("app")]⟩, str ("Button")⟩)
          fs2.files = some s) ∧
      (∀ q, q ≠ css_absolute_filename ⟨⟨true, [str ("app")]⟩, str ("Button")⟩ →
        findContents q fs1.files = findContents q (FS.mk [] []).files) :=
  claim_C4_style_untouched ⟨⟨true, [str ("app")]⟩, str ("Button")⟩ ⟨[], []⟩

/-- C10: for every element and filesystem, `IndexFileCreator.create`
first ensures the index file exists (parent directories made, file
touched), so the later read of the index file always succeeds, and the
whole create never fails. -/
theorem claim_C10_index_read_safe (e : Element) (fs : FS) :
    ∃ fs1, create_empty_file (index_absolute_filename e) fs = .ok fs1 ∧
      (∃ s, read_text (index_absolute_filename e) fs1 = .ok s) ∧
      (∃ fs2, index_create e fs = .ok fs2) := by
  obtain ⟨fs1, hok, _, hfile, _⟩ :=
    create_empty_file_spec (index_absolute_filename e) fs
  refine ⟨fs1, hok,
    ⟨(findContents (index_absolute_filename e) fs.files).getD [], ?_⟩, ?_⟩
  · rw [read_text, hfile]
  · obtain ⟨fs2, h2, _, _, _⟩ := index_create_spec e fs
    exact ⟨fs2, h2⟩

/-- C9: at the category prompt exactly the single-character tokens
`"c"` and `"p"` are recognised, case-insensitively after trimming,
selecting the components resp. pages category; any other input
re-prompts; and whenever the prompt returns, the result is one of the
two `BaseFolder` values. -/
theorem claim_C9_category_tokens (line : Str) (rest lines : List Str) :
    (pyLower (pyStrip line) = str ("c") →
      ask_base_folder (line :: rest) = some (.components, rest)) ∧
    (pyLower (pyStrip line) = str ("p") →
      ask_base_folder (line :: rest) = some (.pages, rest)) ∧
    (¬ pyLower (pyStrip line) = str ("c") →
      ¬ pyLower (pyStrip line) = str ("p") →
      ask_base_folder (line :: rest) = ask_base_folder rest) ∧
    (∀ b r, ask_base_folder lines = some (b, r) →
      b = .components ∨ b = .pages) := by
  refine ⟨ask_base_folder_c_eq line rest, ask_base_folder_p_eq line rest,
    ask_base_folder_retry_eq line rest, ?_⟩
  intro b r _
  cases b
  · exact Or.inl rfl
  · exact Or.inr rfl

/-- C9 witness: the mixed-case padded token `" C "` selects components. -/
theorem claim_C9_witness :
    ask_base_folder [str (" C ")] = some (.components, []) :=
  (claim_C9_category_tokens (str (" C ")) [] []).1 (by decide)

/-- C7 (amended): at the confirmation prompt, after trimming and
lowercasing, the token `"y"` or the empty line is accepted as
confirmation, the token `"n"` terminates the whole program (with status
1 and the cancellation message), and every other input re-prompts.  The
original claim named the full words `"yes"` and `"no"`; the code only
recognises the single letters, and the full words re-prompt, see the
counterexample. -/
theorem claim_C7_confirm_tokens (line : Str) (rest : List Str) :
    (pyLower (pyStrip line) = str ("y") ∨ pyLower (pyStrip line) = [] →
      ask_ok (line :: rest) = .confirmed rest) ∧
    (pyLower (pyStrip line) = str ("n") →
      ask_ok (line :: rest) = .exited 1 cancelMessage) ∧
    (¬(pyLower (pyStrip line) = str ("y") ∨ pyLower (pyStrip line) = []) →
      ¬ pyLower (pyStrip line) = str ("n") →
      ask_ok (line :: rest) = ask_ok rest) :=
  ⟨ask_ok_confirm_eq line rest, ask_ok_decline_eq line rest,
    ask_ok_retry_eq line rest⟩

/-- C7 counterexample: the literal answer `"yes"` is not accepted as
confirmation and the literal answer `"no"` does not terminate — both
merely re-prompt, so a lone `"yes"` leaves the loop starved of input,
and `"no"` followed by `"y"` ends in confirmation. -/
theorem claim_C7_counterexample :
    ask_ok [str ("yes")] = .out_of_input ∧
    ask_ok [str ("no")] = .out_of_input ∧
    ask_ok [str ("no"), str ("y")] = .confirmed [] := by
  decide

/-- C7 witness: the padded answer `" Y "` confirms. -/
theorem claim_C7_witness :
    ask_ok [str (" Y "), str ("x")] = .confirmed [str ("x")] :=
  (claim_C7_confirm_tokens (str (" Y ")) [str ("x")]).1 (by decide)

/-- C5 (amended): declining at the confirmation prompt makes the
program exit with status 1 — CPython's `exit(message)` with a string
argument prints the message and sets status 1 — whereas normal
completion exits with status 0.  The original claim asserted status 0,
the same as normal completion, for the decline path. -/
theorem claim_C5_cancel_exit_code (SRC_DIR : PyPath) (stdin : List Str) (fs : FS)
    (bf : BaseFolder) (element_line decline_line : Str) (rest3 : List Str)
    (h1 : ask_base_folder stdin = some (bf, element_line :: decline_line :: rest3))
    (h2 : pyLower (pyStrip decline_line) = str ("n")) :
    main SRC_DIR stdin fs = .cancelled 1 cancelMessage fs ∧
    (∀ stdin2 fs2 c fs3, main SRC_DIR stdin2 fs2 = .completed c fs3 → c = 0) := by
  constructor
  · exact main_cancel_eq SRC_DIR stdin fs bf element_line (decline_line :: rest3) 1
      cancelMessage h1 (ask_ok_decline_eq decline_line rest3 h2)
  · intro stdin2 fs2 c fs3 hc
    exact main_completed_code SRC_DIR stdin2 fs2 c fs3 hc

/-- C5 counterexample: declining a concrete run exits with status 1,
not status 0 as the claim demands. -/
theorem claim_C5_counterexample :
    main ⟨true, [str ("app")]⟩ [str ("c"), str ("Button"), str ("n")] ⟨[], []⟩
      = .cancelled 1 cancelMessage ⟨[], []⟩ ∧
    main ⟨true, [str ("app")]⟩ [str ("c"), str ("Button"), str ("n")] ⟨[], []⟩
      ≠ .cancelled 0 cancelMessage ⟨[], []⟩ := by
  decide

/-- C5 witness: a concrete declined run under the pages category. -/
theorem claim_C5_witness :
    main ⟨true, [str ("app")]⟩ [str ("p"), str ("X"), str ("N")] ⟨[], []⟩
      = .cancelled 1 cancelMessage ⟨[], []⟩ ∧
    (∀ stdin2 fs2 c fs3,
      main ⟨true, [str ("app")]⟩ stdin2 fs2 = .completed c fs3 → c = 0) :=
  claim_C5_cancel_exit_code ⟨true, [str ("app")]⟩
    [str ("p"), str ("X"), str ("N")] ⟨[], []⟩ .pages (str ("X")) (str ("N")) []
    (by decide) (by decide)

/-- C6: whenever the user declines at the confirmation prompt, `main`
terminates before creating or modifying anything: for every pre-run
filesystem state the post-run state equals the pre-run state. -/
theorem claim_C6_cancel_no_writes (SRC_DIR : PyPath) (stdin : List Str) (fs : FS)
    (bf : BaseFolder) (element_line decline_line : Str) (rest3 : List Str)
    (h1 : ask_base_folder stdin = some (bf, element_line :: decline_line :: rest3))
    (h2 : pyLower (pyStrip decline_line) = str ("n")) :
    main SRC_DIR stdin fs = .cancelled 1 cancelMessage fs :=
  main_cancel_eq SRC_DIR stdin fs bf element_line (decline_line :: rest3) 1
    cancelMessage h1 (ask_ok_decline_eq decline_line rest3 h2)

/-- C6 witness: a declined run over a non-empty pre-run filesystem
returns that filesystem untouched. -/
theorem claim_C6_witness :
    main ⟨true, [str ("home")]⟩ [str ("c"), str ("Card"), str ("n")]
        ⟨[⟨true, []⟩], [(⟨true, [str ("x")]⟩, str ("keep"))]⟩
      = .cancelled 1 cancelMessage
          ⟨[⟨true, []⟩], [(⟨true, [str ("x")]⟩, str ("keep"))]⟩ :=
  claim_C6_cancel_no_writes ⟨true, [str ("home")]⟩
    [str ("c"), str ("Card"), str ("n")]
    ⟨[⟨true, []⟩], [(⟨true, [str ("x")]⟩, str ("keep"))]⟩
    .components (str ("Card")) (str ("n")) [] (by decide) (by decide)

end CreateComponent
